import Mathlib

/-!
Shallow embedding of `gol.py` (Game of Life on rectangular and hex grids).

The Python classes `Grid`, `HexGrid6`, `HexGrid12` are modelled as a single
structure `GolGrid` carrying a `GridKind` tag; the overridden methods
(`getNeighbors`, `live`, `__repr__`) dispatch on that tag.  Python floats
(the weights `1` and `0.3` and the rule thresholds) are modelled as exact
rationals.  Machine lists are Lean lists; Python integer arithmetic on
coordinates is `Int` arithmetic.
-/

/-- The class `Cell` of gol.py: a coordinate paired with a scoring weight. -/
structure Cell where
  coordinate : Int × Int
  weight : ℚ
deriving DecidableEq

/-- Which of the three grid classes a `GolGrid` value stands for. -/
inductive GridKind
  | rect8
  | hex6
  | hex12
deriving DecidableEq

/-- State of a `Grid` object: its `size` field and its `cells` field
(a list of rows of one-character cell symbols). -/
structure GolGrid where
  kind : GridKind
  size : Nat
  cells : List (List Char)
deriving DecidableEq

/-- `Grid.neighbors_offset`, the comprehension
`[(r_idx, c_idx) for r_idx in range(-1,2) for c_idx in range(-1,2) if (r_idx, c_idx) != (0,0)]`,
written out in the order the comprehension produces. -/
def neighbors_offset : List (Int × Int) :=
  [(-1, -1), (-1, 0), (-1, 1), (0, -1), (0, 1), (1, -1), (1, 0), (1, 1)]

/-- `HexGrid6.common_neighbors_offset`. -/
def HexGrid6.common_neighbors_offset : List (Int × Int) :=
  [(-1, 0), (0, -1), (0, 1), (1, 0)]

/-- `HexGrid6.neighbors_offset` indexed by `row % 2 == 1`:
index `False` (even rows) is `common + [(-1,-1), (1,-1)]`,
index `True` (odd rows) is `common + [(-1,1), (1,1)]`. -/
def HexGrid6.neighbors_offset (odd : Bool) : List (Int × Int) :=
  if odd then HexGrid6.common_neighbors_offset ++ [(-1, 1), (1, 1)]
  else HexGrid6.common_neighbors_offset ++ [(-1, -1), (1, -1)]

/-- `HexGrid12.common_neighbors_offset`. -/
def HexGrid12.common_neighbors_offset : List (Int × Int) :=
  [(-2, 0), (2, 0)]

/-- `HexGrid12.neighbors_offset` indexed by `row % 2 == 1`:
index `False` is `common + [(-1,-2), (-1,1), (1,1), (1,-2)]`,
index `True` is `common + [(-1,2), (-1,-1), (1,-1), (1,2)]`. -/
def HexGrid12.neighbors_offset (odd : Bool) : List (Int × Int) :=
  if odd then HexGrid12.common_neighbors_offset ++ [(-1, 2), (-1, -1), (1, -1), (1, 2)]
  else HexGrid12.common_neighbors_offset ++ [(-1, -2), (-1, 1), (1, 1), (1, -2)]

/-- `Grid.__getitem__` with a tuple key: `self.cells[key[0]][key[1]]`.
`update` only ever indexes coordinates inside `[0,size)²`, so the default
returned outside the lists is never observed by the modelled code. -/
def GolGrid.cellAt (g : GolGrid) (coord : Int × Int) : Char :=
  (g.cells.getD coord.1.toNat []).getD coord.2.toNat ' '

/-- `Grid.getNeighbors`: all 8 Moore offsets, dropping any coordinate with a
component equal to `-1` or to `size` (the Python test
`-1 in coordinate or self.size in coordinate`); every kept neighbor gets weight 1. -/
def rectNeighbors (size : Nat) (cell : Int × Int) : List Cell :=
  neighbors_offset.filterMap (fun offset =>
    let coordinate := (cell.1 + offset.1, cell.2 + offset.2)
    if coordinate.1 = -1 ∨ coordinate.2 = -1 ∨
       coordinate.1 = (size : Int) ∨ coordinate.2 = (size : Int)
    then none else some ⟨coordinate, 1⟩)

/-- `HexGrid6.getNeighbors`: the parity-selected 6 offsets, same range filter
as `Grid.getNeighbors`, weight 1. -/
def hex6Neighbors (size : Nat) (cell : Int × Int) : List Cell :=
  (HexGrid6.neighbors_offset (cell.1 % 2 == 1)).filterMap (fun offset =>
    let coordinate := (cell.1 + offset.1, cell.2 + offset.2)
    if coordinate.1 = -1 ∨ coordinate.2 = -1 ∨
       coordinate.1 = (size : Int) ∨ coordinate.2 = (size : Int)
    then none else some ⟨coordinate, 1⟩)

/-- The loop body that `HexGrid12.getNeighbors` appends after the inherited
`HexGrid6` neighbors: the parity-selected 6 additional offsets, dropping any
coordinate with a component in `{-1, -2, size, size+1}`; every kept neighbor
gets weight `0.3`. -/
def hex12Extra (size : Nat) (cell : Int × Int) : List Cell :=
  (HexGrid12.neighbors_offset (cell.1 % 2 == 1)).filterMap (fun offset =>
    let coordinate := (cell.1 + offset.1, cell.2 + offset.2)
    if coordinate.1 = -1 ∨ coordinate.2 = -1 ∨
       coordinate.1 = -2 ∨ coordinate.2 = -2 ∨
       coordinate.1 = (size : Int) ∨ coordinate.2 = (size : Int) ∨
       coordinate.1 = (size : Int) + 1 ∨ coordinate.2 = (size : Int) + 1
    then none else some ⟨coordinate, 3/10⟩)

/-- The dynamically dispatched `getNeighbors` (for `HexGrid12` it is
`super().getNeighbors(cell)` followed by appending its own ring). -/
def GolGrid.getNeighbors (g : GolGrid) (cell : Int × Int) : List Cell :=
  match g.kind with
  | GridKind.rect8 => rectNeighbors g.size cell
  | GridKind.hex6 => hex6Neighbors g.size cell
  | GridKind.hex12 => hex6Neighbors g.size cell ++ hex12Extra g.size cell

/-- `Grid.live`: alive with score in `[2, 3]` survives, dead with score `3` is born. -/
def Grid.live (cell_val : Char) (neighbor_score : ℚ) : Bool :=
  decide ((cell_val = 'X' ∧ (neighbor_score = 2 ∨ neighbor_score = 3)) ∨
          (cell_val = '.' ∧ neighbor_score = 3))

/-- `HexGrid12.live`: alive survives on `2.0 < score < 3.3`, dead is born on
`2.3 < score < 2.9`. -/
def HexGrid12.live (cell_val : Char) (neighbor_score : ℚ) : Bool :=
  decide ((cell_val = 'X' ∧ (2 < neighbor_score ∧ neighbor_score < 33/10)) ∨
          (cell_val = '.' ∧ (23/10 < neighbor_score ∧ neighbor_score < 29/10)))

/-- The dynamically dispatched `live` rule (`HexGrid12` overrides it; the other
two classes share `Grid.live`). -/
def GolGrid.liveRule (g : GolGrid) : Char → ℚ → Bool :=
  match g.kind with
  | GridKind.hex12 => HexGrid12.live
  | _ => Grid.live

/-- The score computed inside `Grid.update` for one cell:
`sum([((0 if self[n.coordinate] == '.' else 1) * n.weight) for n in neighbors])`. -/
def GolGrid.scoreAt (g : GolGrid) (cell : Int × Int) : ℚ :=
  ((g.getNeighbors cell).map (fun n =>
    (if g.cellAt n.coordinate = '.' then (0 : ℚ) else 1) * n.weight)).sum

/-- The character written into `new_cells[row][col]` by one iteration of the
loop body of `Grid.update`; it reads only the pre-update grid `g`. -/
def GolGrid.nextVal (g : GolGrid) (row col : Nat) : Char :=
  if g.liveRule (g.cellAt ((row : Int), (col : Int))) (g.scoreAt ((row : Int), (col : Int)))
  then 'X' else '.'

/-- The assignment `new_cells[r][c] = v` on a list-of-lists. -/
def setCell (cells : List (List Char)) (r c : Nat) (v : Char) : List (List Char) :=
  cells.set r ((cells.getD r []).set c v)

/-- `Grid.update`: start from a deep copy of `cells`, write the new value of
every coordinate of `[0,size)²` in row-major order (each value computed from the
pre-update grid), then replace `cells` with the new array. -/
def GolGrid.update (g : GolGrid) : GolGrid :=
  { g with cells :=
      (List.range g.size).foldl (fun acc row =>
        (List.range g.size).foldl (fun acc2 col =>
          setCell acc2 row col (g.nextVal row col)) acc) g.cells }

/-- The random branch of `Grid.__init__` (`arg` a `(size, prob)` tuple):
`rand c_idx r_idx` models the successive `random.random()` draws, indexed the
way the nested comprehension consumes them. -/
def gridOfRandom (kind : GridKind) (size : Nat) (prob : ℚ) (rand : Nat → Nat → ℚ) : GolGrid :=
  { kind := kind, size := size,
    cells := (List.range size).map (fun c_idx =>
      (List.range size).map (fun r_idx =>
        if rand c_idx r_idx < prob then 'X' else '.')) }

/-- The whitespace test of Python 3 `str.strip()`: the full set of code
points CPython treats as whitespace (`Py_UNICODE_ISSPACE`) — the ASCII range
U+0009–U+000D and U+0020, the separators U+001C–U+001F, U+0085, U+00A0,
U+1680, U+2000–U+200A, U+2028, U+2029, U+202F, U+205F and U+3000. -/
def isPySpace (c : Char) : Bool :=
  (0x09 ≤ c.toNat && c.toNat ≤ 0x0d) || c.toNat = 0x20 ||
  (0x1c ≤ c.toNat && c.toNat ≤ 0x1f) || c.toNat = 0x85 || c.toNat = 0xa0 ||
  c.toNat = 0x1680 || (0x2000 ≤ c.toNat && c.toNat ≤ 0x200a) ||
  c.toNat = 0x2028 || c.toNat = 0x2029 || c.toNat = 0x202f ||
  c.toNat = 0x205f || c.toNat = 0x3000

/-- Python `l.strip()` on a line, as a list of characters. -/
def pyStrip (l : List Char) : List Char :=
  ((l.dropWhile isPySpace).reverse.dropWhile isPySpace).reverse

/-- The file branch of `Grid.__init__`: `lines` are the physical lines returned
by `readlines` (each possibly still carrying its terminator);
`cells = [list(l.strip()) for l in lines]` and `size = len(cells)`. -/
def gridOfLines (kind : GridKind) (lines : List (List Char)) : GolGrid :=
  let cells := lines.map pyStrip
  { kind := kind, size := cells.length, cells := cells }

/-- `Grid.__repr__`: newline-join of the character-joined rows
`self.cells[0] .. self.cells[size-1]`. -/
def rectRepr (g : GolGrid) : String :=
  String.intercalate "\n" ((List.range g.size).map (fun r_idx => String.mk (g.cells.getD r_idx [])))

/-- Shape invariant of a well-formed grid: exactly `size` rows of `size` cells. -/
def wellFormed (g : GolGrid) : Prop :=
  g.cells.length = g.size ∧ ∀ row ∈ g.cells, row.length = g.size

/-- Counting view of rectangular scoring: does position `p` count as alive when
`update` scores a neighbor there, i.e. is it on the board with a symbol other
than `'.'`? -/
def scoresAsAlive (g : GolGrid) (p : Int × Int) : Bool :=
  decide (0 ≤ p.1 ∧ p.1 < (g.size : Int) ∧ 0 ≤ p.2 ∧ p.2 < (g.size : Int)) &&
  decide (g.cellAt p ≠ '.')

/-- Number of in-range non-`'.'` Moore neighbors of `(r, c)`; the rectangular
score equals this count (proved below). -/
def rectCount (g : GolGrid) (r c : Nat) : Nat :=
  neighbors_offset.countP (fun o => scoresAsAlive g ((r : Int) + o.1, (c : Int) + o.2))

/-- Rational-free form of the value `Grid.update` writes at `(r, c)` on a
rectangular grid (proved equal to `nextVal` below). -/
def rectNextVal (g : GolGrid) (r c : Nat) : Char :=
  if (g.cellAt ((r : Int), (c : Int)) = 'X' ∧ (rectCount g r c = 2 ∨ rectCount g r c = 3)) ∨
     (g.cellAt ((r : Int), (c : Int)) = '.' ∧ rectCount g r c = 3)
  then 'X' else '.'

/-- Modelled from the spec: the 8-cell Moore neighborhood of the classic
synchronous Conway step ("an alive cell stays alive iff its number of alive
neighbors is 2 or 3, a dead cell becomes alive iff that number is exactly 3"). -/
def specMoore : List (Int × Int) :=
  [(-1, -1), (-1, 0), (-1, 1), (0, -1), (0, 1), (1, -1), (1, 0), (1, 1)]

/-- Modelled from the spec: state lookup in the previous-generation snapshot. -/
def specGet (cells : List (List Char)) (r c : Nat) : Char :=
  (cells.getD r []).getD c '.'

/-- Modelled from the spec: the number of alive (`'X'`) cells among the in-range
Moore neighbors of `(r, c)` in the previous-generation snapshot. -/
def specAliveNbrs (cells : List (List Char)) (size r c : Nat) : Nat :=
  (specMoore.filter (fun o =>
    decide (0 ≤ (r : Int) + o.1 ∧ (r : Int) + o.1 < (size : Int) ∧
            0 ≤ (c : Int) + o.2 ∧ (c : Int) + o.2 < (size : Int)) &&
    (specGet cells ((r : Int) + o.1).toNat ((c : Int) + o.2).toNat == 'X'))).length

/-- Modelled from the spec: next state of one cell under the classic Conway
rule — alive survives iff its alive-neighbor count is 2 or 3, a non-alive cell
is born iff that count is exactly 3. -/
def specConwayNext (cells : List (List Char)) (size r c : Nat) : Char :=
  if specGet cells r c = 'X' then
    (if specAliveNbrs cells size r c = 2 ∨ specAliveNbrs cells size r c = 3 then 'X' else '.')
  else
    (if specAliveNbrs cells size r c = 3 then 'X' else '.')

/-- Modelled from the spec: the whole-grid classic synchronous Conway step,
every cell computed from the same pre-update snapshot. -/
def specConwayStep (cells : List (List Char)) (size : Nat) : List (List Char) :=
  (List.range size).map (fun r => (List.range size).map (fun c => specConwayNext cells size r c))

/-- A rectangular grid whose cells are given by a coordinate function. -/
def gridOfFn (s : Nat) (f : Nat → Nat → Char) : GolGrid :=
  { kind := GridKind.rect8, size := s,
    cells := (List.range s).map (fun i => (List.range s).map (fun j => f i j)) }

/-- Horizontal blinker phase: three alive cells `(r, c)`, `(r, c+1)`, `(r, c+2)`. -/
def blinkerH (s r c : Nat) : GolGrid :=
  gridOfFn s (fun i j => if i = r ∧ (j = c ∨ j = c + 1 ∨ j = c + 2) then 'X' else '.')

/-- Vertical blinker phase: three alive cells `(r-1, c+1)`, `(r, c+1)`, `(r+1, c+1)`. -/
def blinkerV (s r c : Nat) : GolGrid :=
  gridOfFn s (fun i j => if (i + 1 = r ∨ i = r ∨ i = r + 1) ∧ j = c + 1 then 'X' else '.')

/-- Alive-neighbor count of the horizontal blinker as a function of the
displacement `(di, dj)` from the blinker anchor `(r, c)`. -/
def hCount (di dj : Int) : Nat :=
  neighbors_offset.countP (fun o =>
    decide (di + o.1 = 0 ∧ (dj + o.2 = 0 ∨ dj + o.2 = 1 ∨ dj + o.2 = 2)))

/-- Alive-neighbor count of the vertical blinker as a function of the
displacement `(di, dj)` from the blinker anchor `(r, c)`. -/
def vCount (di dj : Int) : Nat :=
  neighbors_offset.countP (fun o =>
    decide ((di + o.1 = -1 ∨ di + o.1 = 0 ∨ di + o.1 = 1) ∧ dj + o.2 = 1))

/-- Concrete grid for the C10 counterexample: `size = 1` but two rows, each of
the declared row length 1. -/
def c10grid : GolGrid :=
  { kind := GridKind.rect8, size := 1, cells := [['.'], ['.']] }

/-- Concrete grid for the C4 counterexample: an `'o'` cell next to two alive
cells on a 3×3 board. -/
def c4grid : GolGrid :=
  { kind := GridKind.rect8, size := 3,
    cells := [['o', 'X', 'X'], ['.', '.', '.'], ['.', '.', '.']] }

/-- Concrete hex-12 grid (cells are irrelevant to neighbor enumeration). -/
def c2grid : GolGrid :=
  { kind := GridKind.hex12, size := 5,
    cells := List.replicate 5 (List.replicate 5 '.') }

/-- Concrete binary 3×3 rectangular grid used for instantiations. -/
def c1grid : GolGrid :=
  { kind := GridKind.rect8, size := 3,
    cells := [['.', 'X', '.'], ['.', 'X', '.'], ['.', '.', '.']] }

/-- Concrete 4×4 rectangular grid (cells are irrelevant to neighbor
enumeration). -/
def c5grid : GolGrid :=
  { kind := GridKind.rect8, size := 4, cells := List.replicate 4 (List.replicate 4 '.') }

/-- Concrete all-dead 2×2 hex-12 grid. -/
def c6grid : GolGrid :=
  { kind := GridKind.hex12, size := 2, cells := [['.', '.'], ['.', '.']] }

/-- Concrete two-row layout used for the round-trip instantiation. -/
def c7rows : List (List Char) := [['X', '.'], ['.', 'X']]

/-- Collapse a symbol to the alive marker unless it is the dead marker:
the aliveness information scoring actually reads. -/
def replNonDot (ch : Char) : Char :=
  if ch = '.' then '.' else 'X'

/-- The same grid with every non-`'.'` symbol replaced by `'X'`. -/
def GolGrid.withAlivenessOnly (g : GolGrid) : GolGrid :=
  { g with cells := g.cells.map (fun row => row.map replNonDot) }

/-! ### Fold machinery: `update` writes every cell of `[0,size)²` -/

lemma set_append_left_length {α : Type} (l₁ l₂ : List α) (v : α) :
    (l₁ ++ l₂).set l₁.length v = l₁ ++ l₂.set 0 v := by
  induction l₁ with
  | nil => simp
  | cons a t ih => simp [ih]

lemma set_getD_self (l : List (List Char)) (r : Nat) :
    l.set r (l.getD r []) = l := by
  by_cases h : r < l.length
  · apply List.ext_getElem (by simp)
    intro i h1 h2
    rw [List.getElem_set]
    split
    · next heq => subst heq; rw [List.getD_eq_getElem l [] h]
    · rfl
  · exact List.set_eq_of_length_le (by omega)

lemma getD_set_self (l : List (List Char)) (r : Nat) (v : List Char) (h : r < l.length) :
    (l.set r v).getD r [] = v := by
  rw [List.getD_eq_getElem (l.set r v) [] (by simpa using h)]
  simp

/-- Writing `f 0, …, f (m-1)` into positions `0, …, m-1` of a list of length
at least `m` rewrites its first `m` entries. -/
lemma foldl_set_range {α : Type} (f : Nat → α) :
    ∀ (m : Nat) (l : List α), m ≤ l.length →
      (List.range m).foldl (fun acc c => acc.set c (f c)) l
        = ((List.range m).map f) ++ l.drop m := by
  intro m
  induction m with
  | zero => simp
  | succ m ih =>
    intro l hm
    rw [List.range_succ, List.foldl_append, List.foldl_cons, List.foldl_nil,
      ih l (by omega)]
    have hlen : ((List.range m).map f).length = m := by simp
    have hdrop : l.drop m = l[m] :: l.drop (m + 1) := List.drop_eq_getElem_cons (by omega)
    calc ((List.range m).map f ++ l.drop m).set m (f m)
        = ((List.range m).map f ++ l.drop m).set ((List.range m).map f).length (f m) := by
          rw [hlen]
      _ = (List.range m).map f ++ (l.drop m).set 0 (f m) := by
          rw [set_append_left_length]
      _ = (List.range m).map f ++ ([f m] ++ l.drop (m + 1)) := by
          rw [hdrop]; rfl
      _ = ((List.range m ++ [m]).map f) ++ l.drop (m + 1) := by
          simp

/-- One inner column loop only rewrites row `row`. -/
lemma foldl_setCell_row (f : Nat → Nat → Char) (row : Nat) :
    ∀ (cols : List Nat) (acc : List (List Char)),
      cols.foldl (fun a c => setCell a row c (f row c)) acc
        = acc.set row (cols.foldl (fun r c => r.set c (f row c)) (acc.getD row [])) := by
  intro cols
  induction cols with
  | nil => intro acc; rw [List.foldl_nil, List.foldl_nil, set_getD_self]
  | cons c cs ih =>
    intro acc
    by_cases h : row < acc.length
    · rw [List.foldl_cons, List.foldl_cons]
      show cs.foldl (fun a c => setCell a row c (f row c)) (setCell acc row c (f row c)) = _
      rw [ih (setCell acc row c (f row c))]
      unfold setCell
      rw [getD_set_self _ _ _ h, List.set_set]
    · have hle : acc.length ≤ row := by omega
      have hsetc : ∀ v, setCell acc row c v = acc := by
        intro v; unfold setCell; exact List.set_eq_of_length_le hle
      simp only [List.foldl_cons]
      rw [hsetc, ih acc,
        List.set_eq_of_length_le hle, List.set_eq_of_length_le hle]

/-- The outer row loop rewrites the first `m` rows, one inner loop per row. -/
lemma outer_foldl (f : Nat → Nat → Char) (n : Nat) (cells : List (List Char))
    (hn : cells.length = n) :
    ∀ m : Nat, m ≤ n →
      (List.range m).foldl (fun acc row =>
          (List.range n).foldl (fun a2 col => setCell a2 row col (f row col)) acc) cells
        = ((List.range m).map (fun r =>
            (List.range n).foldl (fun rw c => rw.set c (f r c)) (cells.getD r []))) ++ cells.drop m := by
  intro m
  induction m with
  | zero => simp
  | succ m ih =>
    intro hm
    rw [List.range_succ, List.foldl_append, List.foldl_cons, List.foldl_nil, ih (by omega)]
    rw [foldl_setCell_row f m]
    set inner := fun r => (List.range n).foldl (fun rw c => rw.set c (f r c)) (cells.getD r []) with hinner
    have hlen : ((List.range m).map inner).length = m := by simp
    have hmlt : m < cells.length := by omega
    have hdrop : cells.drop m = cells[m] :: cells.drop (m + 1) := List.drop_eq_getElem_cons (by omega)
    have hgetD : ((List.range m).map inner ++ cells.drop m).getD m [] = cells[m] := by
      rw [hdrop, List.getD_eq_getElem _ [] (by simp; omega)]
      rw [List.getElem_append_right (by omega)]
      simp [hlen]
    rw [hgetD]
    calc ((List.range m).map inner ++ cells.drop m).set m
            ((List.range n).foldl (fun rw c => rw.set c (f m c)) cells[m])
        = ((List.range m).map inner ++ cells.drop m).set ((List.range m).map inner).length
            (inner m) := by
          rw [hlen, hinner]
          congr 2
          rw [List.getD_eq_getElem _ [] hmlt]
      _ = (List.range m).map inner ++ (cells.drop m).set 0 (inner m) := by
          rw [set_append_left_length]
      _ = (List.range m).map inner ++ ([inner m] ++ cells.drop (m + 1)) := by
          rw [hdrop]; rfl
      _ = ((List.range m ++ [m]).map inner) ++ cells.drop (m + 1) := by
          simp

/-- The rectangular offsets all lie in `[-1,1]²`. -/
lemma neighbors_offset_bounds :
    ∀ o ∈ neighbors_offset, -1 ≤ o.1 ∧ o.1 ≤ 1 ∧ -1 ≤ o.2 ∧ o.2 ≤ 1 := by decide

/-- Summing the scoring terms over the range-filtered neighbor list equals
counting the offsets whose target is on the board and not `'.'`. -/
lemma rect_score_aux (g : GolGrid) (r c : Int)
    (hr : 0 ≤ r) (hr2 : r < (g.size : Int)) (hc : 0 ≤ c) (hc2 : c < (g.size : Int)) :
    ∀ L : List (Int × Int), (∀ o ∈ L, -1 ≤ o.1 ∧ o.1 ≤ 1 ∧ -1 ≤ o.2 ∧ o.2 ≤ 1) →
      ((L.filterMap (fun offset =>
          if r + offset.1 = -1 ∨ c + offset.2 = -1 ∨
             r + offset.1 = (g.size : Int) ∨ c + offset.2 = (g.size : Int)
          then none else some (⟨(r + offset.1, c + offset.2), 1⟩ : Cell))).map
        (fun n => (if g.cellAt n.coordinate = '.' then (0 : ℚ) else 1) * n.weight)).sum
      = (L.countP (fun o => scoresAsAlive g (r + o.1, c + o.2)) : ℚ) := by
  intro L
  induction L with
  | nil => simp
  | cons o L ih =>
    intro hb
    have ho := hb o (List.mem_cons_self o L)
    have hL := fun a ha => hb a (List.mem_cons_of_mem o ha)
    by_cases hcond : r + o.1 = -1 ∨ c + o.2 = -1 ∨
        r + o.1 = (g.size : Int) ∨ c + o.2 = (g.size : Int)
    · have hrange : ¬(0 ≤ r + o.1 ∧ r + o.1 < (g.size : Int) ∧
          0 ≤ c + o.2 ∧ c + o.2 < (g.size : Int)) := by
        rcases hcond with h | h | h | h <;> omega
      have halive : scoresAsAlive g (r + o.1, c + o.2) = false := by
        simp [scoresAsAlive, hrange]
      rw [List.filterMap_cons_none (by simp [hcond]), List.countP_cons, halive, ih hL]
      simp
    · have hrange : 0 ≤ r + o.1 ∧ r + o.1 < (g.size : Int) ∧
          0 ≤ c + o.2 ∧ c + o.2 < (g.size : Int) := by
        push_neg at hcond
        obtain ⟨n1, n2, n3, n4⟩ := hcond
        omega
      have hsome : (fun offset =>
          if r + offset.1 = -1 ∨ c + offset.2 = -1 ∨
             r + offset.1 = (g.size : Int) ∨ c + offset.2 = (g.size : Int)
          then none else some (⟨(r + offset.1, c + offset.2), 1⟩ : Cell)) o
          = some ⟨(r + o.1, c + o.2), 1⟩ := by simp [hcond]
      simp only [List.filterMap_cons, hsome, List.map_cons, List.sum_cons, List.countP_cons]
      rw [ih hL]
      by_cases hdot : g.cellAt (r + o.1, c + o.2) = '.'
      · have halive : scoresAsAlive g (r + o.1, c + o.2) = false := by
          simp [scoresAsAlive, hdot]
        rw [halive]
        simp [hdot]
      · have halive : scoresAsAlive g (r + o.1, c + o.2) = true := by
          simp [scoresAsAlive, hdot, hrange]
        rw [halive]
        simp only [if_neg hdot]
        push_cast
        ring

/-- The score `update` computes on a rectangular grid is the number of
in-range non-`'.'` Moore neighbors. -/
lemma rect_scoreAt_eq (g : GolGrid) (hk : g.kind = GridKind.rect8) (r c : Nat)
    (hr : r < g.size) (hc : c < g.size) :
    g.scoreAt ((r : Int), (c : Int)) = (rectCount g r c : ℚ) := by
  obtain ⟨k, s, cs⟩ := g
  cases hk
  show ((rectNeighbors s ((r : Int), (c : Int))).map _).sum = _
  unfold rectNeighbors rectCount
  exact rect_score_aux ⟨GridKind.rect8, s, cs⟩ r c (by omega) (by exact_mod_cast hr)
    (by omega) (by exact_mod_cast hc) neighbors_offset neighbors_offset_bounds

/-- `Grid.live` at a natural-number score, with the rational comparisons
replaced by natural-number ones. -/
lemma live_cast (v : Char) (n : Nat) :
    Grid.live v (n : ℚ) = decide ((v = 'X' ∧ (n = 2 ∨ n = 3)) ∨ (v = '.' ∧ n = 3)) := by
  unfold Grid.live
  rw [decide_eq_decide]
  constructor
  · rintro (⟨h1, h2 | h2⟩ | ⟨h1, h2⟩)
    · exact Or.inl ⟨h1, Or.inl (by exact_mod_cast h2)⟩
    · exact Or.inl ⟨h1, Or.inr (by exact_mod_cast h2)⟩
    · exact Or.inr ⟨h1, by exact_mod_cast h2⟩
  · rintro (⟨h1, h2 | h2⟩ | ⟨h1, h2⟩)
    · exact Or.inl ⟨h1, Or.inl (by exact_mod_cast h2)⟩
    · exact Or.inl ⟨h1, Or.inr (by exact_mod_cast h2)⟩
    · exact Or.inr ⟨h1, by exact_mod_cast h2⟩

/-- On a rectangular grid the written value is the rational-free `rectNextVal`. -/
lemma nextVal_eq_rectNextVal (g : GolGrid) (hk : g.kind = GridKind.rect8) (r c : Nat)
    (hr : r < g.size) (hc : c < g.size) :
    g.nextVal r c = rectNextVal g r c := by
  have hlive : g.liveRule = Grid.live := by
    obtain ⟨k, s, cs⟩ := g
    cases hk
    rfl
  unfold GolGrid.nextVal rectNextVal
  rw [hlive, rect_scoreAt_eq g hk r c hr hc, live_cast]
  simp only [decide_eq_true_eq]

/-- Pointwise description of `update` on a well-shaped grid: the new `cells`
array is exactly the table of `nextVal` values, every entry computed from the
pre-update grid. -/
lemma update_cells_eq (g : GolGrid) (h1 : g.cells.length = g.size)
    (h2 : ∀ row ∈ g.cells, row.length = g.size) :
    (g.update).cells = (List.range g.size).map (fun r =>
      (List.range g.size).map (fun c => g.nextVal r c)) := by
  show (List.range g.size).foldl _ g.cells = _
  rw [outer_foldl (fun r c => g.nextVal r c) g.size g.cells h1 g.size (le_refl _)]
  rw [List.drop_eq_nil_of_le (by omega), List.append_nil]
  apply List.map_congr_left
  intro r hr
  rw [List.mem_range] at hr
  have hmem : g.cells.getD r [] ∈ g.cells := by
    rw [List.getD_eq_getElem _ [] (by omega)]
    exact List.getElem_mem _
  have hrow : (g.cells.getD r []).length = g.size := h2 _ hmem
  rw [foldl_set_range (fun c => g.nextVal r c) g.size _ (le_of_eq hrow.symm),
    List.drop_eq_nil_of_le (le_of_eq hrow), List.append_nil]

/-- Rational-free pointwise description of `update` on a well-shaped
rectangular grid. -/
lemma update_cells_rect (g : GolGrid) (hk : g.kind = GridKind.rect8)
    (h1 : g.cells.length = g.size) (h2 : ∀ row ∈ g.cells, row.length = g.size) :
    (g.update).cells = (List.range g.size).map (fun r =>
      (List.range g.size).map (fun c => rectNextVal g r c)) := by
  rw [update_cells_eq g h1 h2]
  apply List.map_congr_left
  intro r hr
  apply List.map_congr_left
  intro c hc
  rw [List.mem_range] at hr hc
  exact nextVal_eq_rectNextVal g hk r c hr hc

/-! ### C3: construction from (size, prob) -/

/-- C3 counterexample: `Grid.__init__` performs no validation.  With the
out-of-range probability 2 (and a draw of 1/2) a one-cell grid is produced,
and with size 0 a grid with an empty cell array is produced; neither
construction fails. -/
theorem random_construction_no_validation_counterexample :
    gridOfRandom GridKind.rect8 1 2 (fun _ _ => 1/2)
      = { kind := GridKind.rect8, size := 1, cells := [['X']] } ∧
    gridOfRandom GridKind.rect8 0 (1/2) (fun _ _ => 1/2)
      = { kind := GridKind.rect8, size := 0, cells := [] } := by
  constructor
  · unfold gridOfRandom
    norm_num [List.range_succ]
  · rfl

/-- C3 (amended): random construction is total — for every size and
probability a grid is produced, with `size` rows of `size` cells, each cell
`'X'` or `'.'`; no parameter validation occurs. -/
theorem random_construction_total (kind : GridKind) (size : Nat) (prob : ℚ)
    (rand : Nat → Nat → ℚ) :
    (gridOfRandom kind size prob rand).size = size ∧
    (gridOfRandom kind size prob rand).cells.length = size ∧
    ∀ row ∈ (gridOfRandom kind size prob rand).cells,
      row.length = size ∧ ∀ ch ∈ row, ch = 'X' ∨ ch = '.' := by
  refine ⟨rfl, by simp [gridOfRandom], ?_⟩
  intro row hrow
  simp only [gridOfRandom, List.mem_map, List.mem_range] at hrow
  obtain ⟨i, hi, rfl⟩ := hrow
  constructor
  · simp
  · intro ch hch
    simp only [List.mem_map, List.mem_range] at hch
    obtain ⟨j, hj, rfl⟩ := hch
    split_ifs <;> simp

/-! ### C2: Hex12 neighbor enumeration -/

/-- C2 counterexample: on a 5×5 Hex12 grid the neighbor of `(2,2)` coming
from the far-axial offset `(-2,0)` — coordinate `(0,2)` — carries weight
`0.3`, not the weight `1.0` the claim asserts for the two far-axial
neighbors. -/
theorem hex12_far_axial_weight_counterexample :
    ∃ n ∈ c2grid.getNeighbors (2, 2),
      n.coordinate = ((0 : Int), (2 : Int)) ∧ n.weight = 3/10 ∧ ¬ n.weight = 1 := by
  refine ⟨⟨(0, 2), 3/10⟩, ?_, rfl, rfl, by norm_num⟩
  show _ ∈ hex6Neighbors 5 (2, 2) ++ hex12Extra 5 (2, 2)
  rw [List.mem_append]
  right
  unfold hex12Extra HexGrid12.neighbors_offset HexGrid12.common_neighbors_offset
  norm_num [List.filterMap_cons]

/-- Each parity-indexed Hex6 offset table has 6 entries and each Hex12 one
has 6 entries. -/
lemma hex_offset_lengths (b : Bool) :
    (HexGrid6.neighbors_offset b).length = 6 ∧ (HexGrid12.neighbors_offset b).length = 6 := by
  cases b <;> exact ⟨rfl, rfl⟩

/-- C2 (amended): on a Hex12 grid, for every in-range coordinate,
`getNeighbors` is the 6 inherited Hex6 neighbors followed by the additional
ring, has at most 12 entries (at most 6 from each part), every inherited
neighbor has weight 1.0, and every additional neighbor — the two far-axial
offsets included — has weight 0.3. -/
theorem hex12_neighbors_at_most_twelve_weights (g : GolGrid)
    (hk : g.kind = GridKind.hex12) (cell : Int × Int)
    (hr : 0 ≤ cell.1 ∧ cell.1 < (g.size : Int))
    (hc : 0 ≤ cell.2 ∧ cell.2 < (g.size : Int)) :
    g.getNeighbors cell = hex6Neighbors g.size cell ++ hex12Extra g.size cell ∧
    (g.getNeighbors cell).length ≤ 12 ∧
    (hex6Neighbors g.size cell).length ≤ 6 ∧
    (hex12Extra g.size cell).length ≤ 6 ∧
    (∀ n ∈ hex6Neighbors g.size cell, n.weight = 1) ∧
    (∀ n ∈ hex12Extra g.size cell, n.weight = 3/10) := by
  have hdisp : g.getNeighbors cell = hex6Neighbors g.size cell ++ hex12Extra g.size cell := by
    obtain ⟨k, s, cs⟩ := g
    cases hk
    rfl
  have h6 : (hex6Neighbors g.size cell).length ≤ 6 := by
    unfold hex6Neighbors
    calc _ ≤ (HexGrid6.neighbors_offset (cell.1 % 2 == 1)).length :=
          List.length_filterMap_le _ _
      _ = 6 := (hex_offset_lengths _).1
  have h12 : (hex12Extra g.size cell).length ≤ 6 := by
    unfold hex12Extra
    calc _ ≤ (HexGrid12.neighbors_offset (cell.1 % 2 == 1)).length :=
          List.length_filterMap_le _ _
      _ = 6 := (hex_offset_lengths _).2
  refine ⟨hdisp, ?_, h6, h12, ?_, ?_⟩
  · rw [hdisp, List.length_append]
    omega
  · intro n hn
    rw [hex6Neighbors, List.mem_filterMap] at hn
    obtain ⟨o, ho, heq⟩ := hn
    by_cases hcond : cell.1 + o.1 = -1 ∨ cell.2 + o.2 = -1 ∨
        cell.1 + o.1 = (g.size : Int) ∨ cell.2 + o.2 = (g.size : Int)
    · simp [hcond] at heq
    · simp only [if_neg hcond, Option.some.injEq] at heq
      rw [← heq]
  · intro n hn
    rw [hex12Extra, List.mem_filterMap] at hn
    obtain ⟨o, ho, heq⟩ := hn
    by_cases hcond : cell.1 + o.1 = -1 ∨ cell.2 + o.2 = -1 ∨
        cell.1 + o.1 = -2 ∨ cell.2 + o.2 = -2 ∨
        cell.1 + o.1 = (g.size : Int) ∨ cell.2 + o.2 = (g.size : Int) ∨
        cell.1 + o.1 = (g.size : Int) + 1 ∨ cell.2 + o.2 = (g.size : Int) + 1
    · simp [hcond] at heq
    · simp only [if_neg hcond, Option.some.injEq] at heq
      rw [← heq]

/-! ### C10 counterexample: update keeps rows beyond `size` -/

/-- C10 counterexample: `c10grid` has `size = 1` and every row of length 1
(the claim's hypothesis), yet after `update()` the grid still has 2 rows,
not `size` rows — the deep copy keeps rows beyond `size` untouched. -/
theorem update_shape_counterexample :
    (∀ row ∈ c10grid.cells, row.length = c10grid.size) ∧
    (c10grid.update).cells.length = 2 ∧
    (c10grid.update).cells.length ≠ c10grid.size := by decide

/-! ### C4: symbols other than 'X' and '.' -/

/-- C4 counterexample: in `c4grid` the cell `(0,0)` holds `'o'`.  The claim
says it is treated as DEAD exactly like `'.'`, which would give cell `(0,1)`
(alive, with `(0,2)` its only alive neighbor) a score of 1 and kill it — the
spec-modelled Conway step computes `'.'` there.  The code instead counts the
`'o'` as alive, giving `(0,1)` a score of 2, so it survives as `'X'`. -/
theorem non_dot_symbol_counts_alive_counterexample :
    ((c4grid.update).cells.getD 0 []).getD 1 ' ' = 'X' ∧
    specGet (specConwayStep c4grid.cells c4grid.size) 0 1 = '.' ∧
    (c4grid.update).cells ≠ specConwayStep c4grid.cells c4grid.size := by
  have hcells : (c4grid.update).cells = [['.', 'X', '.'], ['.', 'X', '.'], ['.', '.', '.']] := by
    rw [update_cells_rect c4grid rfl (by decide) (by decide)]
    decide
  refine ⟨by rw [hcells]; rfl, by decide, ?_⟩
  rw [hcells]
  decide

lemma replNonDot_eq_dot (x : Char) : (replNonDot x = '.') ↔ (x = '.') := by
  unfold replNonDot
  split
  · next h => simp [h]
  · next h =>
    constructor
    · intro hh
      exact absurd hh (by decide)
    · intro hh
      exact absurd hh h

lemma getD_map_repl (row : List Char) (j : Nat) :
    ((row.map replNonDot).getD j ' ' = '.') ↔ (row.getD j ' ' = '.') := by
  by_cases hj : j < row.length
  · rw [List.getD_eq_getElem _ ' ' (by simpa using hj), List.getD_eq_getElem _ ' ' hj,
      List.getElem_map]
    exact replNonDot_eq_dot _
  · rw [List.getD_eq_getElem?_getD, List.getD_eq_getElem?_getD,
      List.getElem?_eq_none (by simpa using not_lt.mp hj),
      List.getElem?_eq_none (not_lt.mp hj)]

/-- Replacing non-`'.'` symbols by `'X'` does not change which cells read as
dead, anywhere (also at the defaults outside the array). -/
lemma cellAt_withAlivenessOnly_dot (g : GolGrid) (p : Int × Int) :
    ((g.withAlivenessOnly).cellAt p = '.') ↔ (g.cellAt p = '.') := by
  show (((g.cells.map (fun row => row.map replNonDot)).getD p.1.toNat []).getD p.2.toNat ' '
      = '.') ↔ ((g.cells.getD p.1.toNat []).getD p.2.toNat ' ' = '.')
  by_cases hi : p.1.toNat < g.cells.length
  · rw [List.getD_eq_getElem _ [] (by simpa using hi), List.getD_eq_getElem _ [] hi,
      List.getElem_map]
    exact getD_map_repl _ _
  · rw [List.getD_eq_getElem?_getD (g.cells.map (fun row => row.map replNonDot)),
      List.getD_eq_getElem?_getD g.cells,
      List.getElem?_eq_none (by simpa using not_lt.mp hi),
      List.getElem?_eq_none (not_lt.mp hi)]

/-- Neither rule can keep a cell alive whose symbol is neither `'X'` nor
`'.'`, whatever the score. -/
lemma liveRule_non_binary (g : GolGrid) (v : Char) (hX : v ≠ 'X') (hdot : v ≠ '.')
    (sc : ℚ) : g.liveRule v sc = false := by
  obtain ⟨k, s, cs⟩ := g
  cases k
  case hex12 =>
    show HexGrid12.live v sc = false
    unfold HexGrid12.live
    rw [decide_eq_false_iff_not]
    rintro (⟨h, _⟩ | ⟨h, _⟩)
    · exact hX h
    · exact hdot h
  all_goals
    show Grid.live v sc = false
    unfold Grid.live
    rw [decide_eq_false_iff_not]
    rintro (⟨h, _⟩ | ⟨h, _⟩)
    · exact hX h
    · exact hdot h

/-- C4 (amended): on every topology, scoring treats any symbol other than
`'.'` exactly like an alive cell — replacing every non-`'.'` symbol by `'X'`
leaves every aggregate score unchanged, so such a symbol contributes its
neighbor's full weight, not 0 — while a cell whose own symbol is neither
`'X'` nor `'.'` is dead (`'.'`) in the next generation regardless of its
score, instead of following the birth rule. -/
theorem non_binary_symbol_scores_like_alive_and_dies (g : GolGrid)
    (cell : Int × Int) (r c : Nat) :
    g.scoreAt cell = (g.withAlivenessOnly).scoreAt cell ∧
    (g.cellAt ((r : Int), (c : Int)) ≠ 'X' → g.cellAt ((r : Int), (c : Int)) ≠ '.' →
      g.nextVal r c = '.') := by
  constructor
  · unfold GolGrid.scoreAt
    rw [show (g.withAlivenessOnly).getNeighbors cell = g.getNeighbors cell from rfl]
    apply congrArg List.sum
    apply List.map_congr_left
    intro n hn
    congr 1
    by_cases h : g.cellAt n.coordinate = '.'
    · rw [if_pos h, if_pos ((cellAt_withAlivenessOnly_dot g _).mpr h)]
    · rw [if_neg h, if_neg (fun hcon => h ((cellAt_withAlivenessOnly_dot g _).mp hcon))]
  · intro hX hdot
    unfold GolGrid.nextVal
    rw [liveRule_non_binary g _ hX hdot]
    rfl

/-! ### C7: load–render round trip -/

lemma dropWhile_eq_self_of_no_space {l : List Char}
    (h : ∀ ch ∈ l, isPySpace ch = false) : l.dropWhile isPySpace = l := by
  cases l with
  | nil => rfl
  | cons a t =>
    rw [List.dropWhile_cons_of_neg]
    rw [h a (List.mem_cons_self a t)]
    simp

/-- `strip()` is the identity on a line with no whitespace at all. -/
lemma pyStrip_eq_self {l : List Char} (h : ∀ ch ∈ l, isPySpace ch = false) :
    pyStrip l = l := by
  unfold pyStrip
  rw [dropWhile_eq_self_of_no_space h,
    dropWhile_eq_self_of_no_space (fun ch hch => h ch (List.mem_reverse.mp hch)),
    List.reverse_reverse]

/-- `strip()` removes exactly the line terminator from a terminated line whose
body has no whitespace. -/
lemma pyStrip_append_newline {l : List Char}
    (h : ∀ ch ∈ l, isPySpace ch = false) : pyStrip (l ++ ['\n']) = l := by
  unfold pyStrip
  cases l with
  | nil => rfl
  | cons a t =>
    have h1 : List.dropWhile isPySpace ((a :: t) ++ ['\n']) = (a :: t) ++ ['\n'] := by
      rw [List.cons_append,
        List.dropWhile_cons_of_neg (by rw [h a (List.mem_cons_self a t)]; simp)]
    have h2 : ((a :: t) ++ ['\n']).reverse = '\n' :: (a :: t).reverse := by
      simp
    rw [h1, h2, List.dropWhile_cons_of_pos (by decide),
      dropWhile_eq_self_of_no_space (fun ch hch => h ch (List.mem_reverse.mp hch)),
      List.reverse_reverse]

/-- Reading a list back off by `getD` over its index range reproduces it
(under any post-composition). -/
lemma map_range_getD {α : Type} (l : List (List Char)) (f : List Char → α) :
    (List.range l.length).map (fun r => f (l.getD r [])) = l.map f := by
  apply List.ext_getElem (by simp)
  intro i h1 h2
  rw [List.getElem_map, List.getElem_map, List.getElem_range,
    List.getD_eq_getElem l [] (by simpa using h2)]

/-- C7 (confirmed): loading a well-formed rectangular layout — rows of equal
length containing no whitespace, whether or not each physical line carries a
terminator — and immediately rendering reproduces the original text (the rows
joined by newlines) exactly. -/
theorem load_then_render_roundtrip (rows : List (List Char))
    (hws : ∀ row ∈ rows, ∀ ch ∈ row, isPySpace ch = false)
    (hrect : ∃ k, ∀ row ∈ rows, row.length = k) :
    rectRepr (gridOfLines GridKind.rect8 (rows.map (fun r => r ++ ['\n'])))
      = String.intercalate "\n" (rows.map String.mk) ∧
    rectRepr (gridOfLines GridKind.rect8 rows)
      = String.intercalate "\n" (rows.map String.mk) := by
  have hstrip1 : (rows.map (fun r => r ++ ['\n'])).map pyStrip = rows := by
    rw [List.map_map]
    have : ∀ r ∈ rows, (pyStrip ∘ fun r => r ++ ['\n']) r = id r := by
      intro r hr
      exact pyStrip_append_newline (hws r hr)
    rw [List.map_congr_left this, List.map_id]
  have hstrip2 : rows.map pyStrip = rows := by
    have : ∀ r ∈ rows, pyStrip r = id r := by
      intro r hr
      exact pyStrip_eq_self (hws r hr)
    rw [List.map_congr_left this, List.map_id]
  have hc1 : (gridOfLines GridKind.rect8 (rows.map (fun r => r ++ ['\n']))).cells = rows := hstrip1
  have hs1 : (gridOfLines GridKind.rect8 (rows.map (fun r => r ++ ['\n']))).size = rows.length := by
    show ((rows.map (fun r => r ++ ['\n'])).map pyStrip).length = rows.length
    rw [hstrip1]
  have hc2 : (gridOfLines GridKind.rect8 rows).cells = rows := hstrip2
  have hs2 : (gridOfLines GridKind.rect8 rows).size = rows.length := by
    show (rows.map pyStrip).length = rows.length
    rw [hstrip2]
  constructor
  · unfold rectRepr
    rw [hc1, hs1, map_range_getD rows String.mk]
  · unfold rectRepr
    rw [hc2, hs2, map_range_getD rows String.mk]

/-! ### C5: Rect8 neighbor enumeration -/

/-- The length of the range-filtered Rect8 neighbor list, as a count over the
offset table. -/
lemma rectNeighbors_length_eq_countP (s : Nat) (cell : Int × Int) :
    (rectNeighbors s cell).length = neighbors_offset.countP (fun o =>
      decide ¬(cell.1 + o.1 = -1 ∨ cell.2 + o.2 = -1 ∨
               cell.1 + o.1 = (s : Int) ∨ cell.2 + o.2 = (s : Int))) := by
  unfold rectNeighbors
  generalize neighbors_offset = L
  induction L with
  | nil => rfl
  | cons o L ih =>
    by_cases h : cell.1 + o.1 = -1 ∨ cell.2 + o.2 = -1 ∨
        cell.1 + o.1 = (s : Int) ∨ cell.2 + o.2 = (s : Int)
    · rw [List.filterMap_cons_none (by simp [h]), List.countP_cons, ih]
      simp [h]
    · simp only [List.filterMap_cons, if_neg h, List.length_cons, List.countP_cons, ih]
      simp [h]

/-- C5 (confirmed): on a Rect8 grid, for every in-range coordinate,
`getNeighbors` has at most 8 entries, all inside `[0,size)²` and all of
weight 1.0; and for size at least 2 each of the four corners has exactly 3
neighbors. -/
theorem rect8_neighbors_bounded_inrange_corners (g : GolGrid)
    (hk : g.kind = GridKind.rect8) (cell : Int × Int)
    (hr : 0 ≤ cell.1 ∧ cell.1 < (g.size : Int))
    (hc : 0 ≤ cell.2 ∧ cell.2 < (g.size : Int)) :
    ((g.getNeighbors cell).length ≤ 8 ∧
     ∀ n ∈ g.getNeighbors cell,
       (0 ≤ n.coordinate.1 ∧ n.coordinate.1 < (g.size : Int) ∧
        0 ≤ n.coordinate.2 ∧ n.coordinate.2 < (g.size : Int)) ∧ n.weight = 1) ∧
    (2 ≤ g.size →
      (g.getNeighbors ((0 : Int), (0 : Int))).length = 3 ∧
      (g.getNeighbors ((0 : Int), (g.size : Int) - 1)).length = 3 ∧
      (g.getNeighbors ((g.size : Int) - 1, (0 : Int))).length = 3 ∧
      (g.getNeighbors ((g.size : Int) - 1, (g.size : Int) - 1)).length = 3) := by
  have hdisp : ∀ p : Int × Int, g.getNeighbors p = rectNeighbors g.size p := by
    obtain ⟨k, s, cs⟩ := g
    cases hk
    intro p
    rfl
  constructor
  · constructor
    · rw [hdisp]
      calc (rectNeighbors g.size cell).length
          ≤ neighbors_offset.length := List.length_filterMap_le _ _
        _ = 8 := rfl
    · intro n hn
      rw [hdisp, rectNeighbors, List.mem_filterMap] at hn
      obtain ⟨o, ho, heq⟩ := hn
      have hb := neighbors_offset_bounds o ho
      by_cases hcond : cell.1 + o.1 = -1 ∨ cell.2 + o.2 = -1 ∨
          cell.1 + o.1 = (g.size : Int) ∨ cell.2 + o.2 = (g.size : Int)
      · simp [hcond] at heq
      · simp only [if_neg hcond, Option.some.injEq] at heq
        subst heq
        push_neg at hcond
        obtain ⟨n1, n2, n3, n4⟩ := hcond
        exact ⟨show (0 ≤ cell.1 + o.1 ∧ cell.1 + o.1 < (g.size : Int) ∧
          0 ≤ cell.2 + o.2 ∧ cell.2 + o.2 < (g.size : Int)) from by omega, rfl⟩
  · intro h2s
    have hs2 : (2 : Int) ≤ (g.size : Int) := by exact_mod_cast h2s
    refine ⟨?_, ?_, ?_, ?_⟩ <;>
      · rw [hdisp, rectNeighbors_length_eq_countP]
        simp only [neighbors_offset, List.countP_cons, List.countP_nil,
          decide_eq_true_eq]
        norm_num
        split_ifs <;> omega

/-! ### C1: the rectangular update is the classic synchronous Conway step -/

/-- In-range lookups hit actual elements of the cell array, whatever the
default; `cellAt` and the spec-side `specGet` agree there. -/
lemma cellAt_getElem (g : GolGrid) (h1 : g.cells.length = g.size)
    (h2 : ∀ row ∈ g.cells, row.length = g.size) (a b : Int)
    (ha : 0 ≤ a ∧ a < (g.size : Int)) (hb : 0 ≤ b ∧ b < (g.size : Int)) :
    ∃ hrow : a.toNat < g.cells.length, ∃ hcol : b.toNat < (g.cells[a.toNat]).length,
      g.cellAt (a, b) = g.cells[a.toNat][b.toNat] ∧
      specGet g.cells a.toNat b.toNat = g.cells[a.toNat][b.toNat] := by
  have hrow : a.toNat < g.cells.length := by omega
  have hlen : (g.cells[a.toNat]).length = g.size := h2 _ (List.getElem_mem hrow)
  have hcol : b.toNat < (g.cells[a.toNat]).length := by omega
  refine ⟨hrow, hcol, ?_, ?_⟩
  · unfold GolGrid.cellAt
    rw [List.getD_eq_getElem g.cells [] hrow, List.getD_eq_getElem _ ' ' hcol]
  · unfold specGet
    rw [List.getD_eq_getElem g.cells [] hrow, List.getD_eq_getElem _ '.' hcol]

/-- On a grid of `'X'`/`'.'` symbols, "scores as alive" is exactly
"in range and alive in the snapshot". -/
lemma scoresAsAlive_eq_spec_pred (g : GolGrid) (h1 : g.cells.length = g.size)
    (h2 : ∀ row ∈ g.cells, row.length = g.size)
    (hbin : ∀ row ∈ g.cells, ∀ ch ∈ row, ch = 'X' ∨ ch = '.') (p : Int × Int) :
    scoresAsAlive g p =
      (decide (0 ≤ p.1 ∧ p.1 < (g.size : Int) ∧ 0 ≤ p.2 ∧ p.2 < (g.size : Int)) &&
       (specGet g.cells p.1.toNat p.2.toNat == 'X')) := by
  obtain ⟨a, b⟩ := p
  unfold scoresAsAlive
  by_cases hp : 0 ≤ a ∧ a < (g.size : Int) ∧ 0 ≤ b ∧ b < (g.size : Int)
  · obtain ⟨hrow, hcol, hcell, hspec⟩ :=
      cellAt_getElem g h1 h2 a b ⟨hp.1, hp.2.1⟩ ⟨hp.2.2.1, hp.2.2.2⟩
    have hval : g.cells[a.toNat][b.toNat] = 'X' ∨ g.cells[a.toNat][b.toNat] = '.' :=
      hbin _ (List.getElem_mem hrow) _ (List.getElem_mem hcol)
    rcases hval with hv | hv <;> simp [hp, hcell, hspec, hv]
  · simp [hp]

/-- The neighbor count used by the rectangular rule equals the spec-side
alive-neighbor count on a binary grid. -/
lemma rectCount_eq_specAliveNbrs (g : GolGrid) (h1 : g.cells.length = g.size)
    (h2 : ∀ row ∈ g.cells, row.length = g.size)
    (hbin : ∀ row ∈ g.cells, ∀ ch ∈ row, ch = 'X' ∨ ch = '.') (r c : Nat) :
    rectCount g r c = specAliveNbrs g.cells g.size r c := by
  unfold rectCount specAliveNbrs
  rw [← List.countP_eq_length_filter]
  rw [show specMoore = neighbors_offset from rfl]
  apply List.countP_congr
  intro o ho
  rw [scoresAsAlive_eq_spec_pred g h1 h2 hbin ((r : Int) + o.1, (c : Int) + o.2)]

/-- Pointwise: on a binary rectangular grid the written value is the
spec-side classic Conway next state. -/
lemma rectNextVal_eq_specConwayNext (g : GolGrid) (h1 : g.cells.length = g.size)
    (h2 : ∀ row ∈ g.cells, row.length = g.size)
    (hbin : ∀ row ∈ g.cells, ∀ ch ∈ row, ch = 'X' ∨ ch = '.')
    (r c : Nat) (hr : r < g.size) (hc : c < g.size) :
    rectNextVal g r c = specConwayNext g.cells g.size r c := by
  obtain ⟨hrow, hcol, hcell, hspec⟩ := cellAt_getElem g h1 h2 r c
    ⟨by omega, by exact_mod_cast hr⟩ ⟨by omega, by exact_mod_cast hc⟩
  have hcs : g.cellAt ((r : Int), (c : Int)) = specGet g.cells r c := by
    rw [hcell]
    exact hspec.symm
  have hval : specGet g.cells r c = 'X' ∨ specGet g.cells r c = '.' := by
    rcases hbin _ (List.getElem_mem hrow) _ (List.getElem_mem hcol) with h | h
    · exact Or.inl (hspec.trans h)
    · exact Or.inr (hspec.trans h)
  unfold rectNextVal specConwayNext
  rw [rectCount_eq_specAliveNbrs g h1 h2 hbin r c, hcs]
  rcases hval with hv | hv <;> rw [hv] <;> simp

/-- C1 (confirmed): on a rectangular grid whose cells are all `'X'` or `'.'`,
one `update()` call replaces the state with exactly the classic synchronous
Conway step of the pre-update snapshot: alive survives iff its alive-neighbor
count is 2 or 3, dead is born iff that count is 3, and every next-state value
is a function of the previous generation's full array only. -/
theorem rect8_update_is_classic_conway (g : GolGrid) (hk : g.kind = GridKind.rect8)
    (h1 : g.cells.length = g.size) (h2 : ∀ row ∈ g.cells, row.length = g.size)
    (hbin : ∀ row ∈ g.cells, ∀ ch ∈ row, ch = 'X' ∨ ch = '.') :
    g.update = { g with cells := specConwayStep g.cells g.size } := by
  have hcells : (g.update).cells = specConwayStep g.cells g.size := by
    rw [update_cells_rect g hk h1 h2]
    unfold specConwayStep
    apply List.map_congr_left
    intro r hr
    apply List.map_congr_left
    intro c hc
    rw [List.mem_range] at hr hc
    exact rectNextVal_eq_specConwayNext g h1 h2 hbin r c hr hc
  obtain ⟨k, s, cs⟩ := g
  show GolGrid.mk k s _ = GolGrid.mk k s _
  rw [GolGrid.mk.injEq]
  exact ⟨rfl, rfl, hcells⟩

/-! ### C9: after update every cell is 'X' or '.' -/

/-- C9 (confirmed): on any well-formed `size × size` grid of any topology,
whatever symbols it held, a single `update()` leaves every cell `'X'` or
`'.'`. -/
theorem update_produces_only_binary_symbols (g : GolGrid)
    (h1 : g.cells.length = g.size) (h2 : ∀ row ∈ g.cells, row.length = g.size) :
    ∀ row ∈ (g.update).cells, ∀ ch ∈ row, ch = 'X' ∨ ch = '.' := by
  intro row hrow
  rw [update_cells_eq g h1 h2, List.mem_map] at hrow
  obtain ⟨r, hr, rfl⟩ := hrow
  intro ch hch
  rw [List.mem_map] at hch
  obtain ⟨c, hc, rfl⟩ := hch
  unfold GolGrid.nextVal
  split
  · exact Or.inl rfl
  · exact Or.inr rfl

/-! ### C10 (amended): shape preservation on exactly-square grids -/

/-- C10 (amended): on a grid with exactly `size` rows of exactly `size`
cells, `update()` keeps exactly `size` rows of `size` cells and leaves the
`size` field unchanged. -/
theorem update_preserves_shape_of_square_grid (g : GolGrid)
    (h1 : g.cells.length = g.size) (h2 : ∀ row ∈ g.cells, row.length = g.size) :
    (g.update).cells.length = g.size ∧
    (∀ row ∈ (g.update).cells, row.length = g.size) ∧
    (g.update).size = g.size := by
  refine ⟨?_, ?_, rfl⟩
  · rw [update_cells_eq g h1 h2]
    simp
  · intro row hrow
    rw [update_cells_eq g h1 h2, List.mem_map] at hrow
    obtain ⟨r, hr, rfl⟩ := hrow
    simp

/-! ### C6: an all-dead board is a fixed point for every topology -/

lemma hex6_offset_bounds : ∀ b : Bool, ∀ o ∈ HexGrid6.neighbors_offset b,
    -1 ≤ o.1 ∧ o.1 ≤ 1 ∧ -1 ≤ o.2 ∧ o.2 ≤ 1 := by decide

lemma hex12_offset_bounds : ∀ b : Bool, ∀ o ∈ HexGrid12.neighbors_offset b,
    -2 ≤ o.1 ∧ o.1 ≤ 2 ∧ -2 ≤ o.2 ∧ o.2 ≤ 2 := by decide

/-- Every topology's `getNeighbors` only returns coordinates inside
`[0,size)²` when queried at an in-range coordinate. -/
lemma getNeighbors_inRange (g : GolGrid) (cell : Int × Int)
    (hr : 0 ≤ cell.1 ∧ cell.1 < (g.size : Int)) (hc : 0 ≤ cell.2 ∧ cell.2 < (g.size : Int)) :
    ∀ n ∈ g.getNeighbors cell,
      0 ≤ n.coordinate.1 ∧ n.coordinate.1 < (g.size : Int) ∧
      0 ≤ n.coordinate.2 ∧ n.coordinate.2 < (g.size : Int) := by
  have hrect : ∀ n ∈ rectNeighbors g.size cell,
      0 ≤ n.coordinate.1 ∧ n.coordinate.1 < (g.size : Int) ∧
      0 ≤ n.coordinate.2 ∧ n.coordinate.2 < (g.size : Int) := by
    intro n hn
    rw [rectNeighbors, List.mem_filterMap] at hn
    obtain ⟨o, ho, heq⟩ := hn
    have hb := neighbors_offset_bounds o ho
    by_cases hcond : cell.1 + o.1 = -1 ∨ cell.2 + o.2 = -1 ∨
        cell.1 + o.1 = (g.size : Int) ∨ cell.2 + o.2 = (g.size : Int)
    · simp [hcond] at heq
    · simp only [if_neg hcond, Option.some.injEq] at heq
      subst heq
      push_neg at hcond
      obtain ⟨n1, n2, n3, n4⟩ := hcond
      exact show (0 ≤ cell.1 + o.1 ∧ cell.1 + o.1 < (g.size : Int) ∧
        0 ≤ cell.2 + o.2 ∧ cell.2 + o.2 < (g.size : Int)) from by omega
  have hhex6 : ∀ n ∈ hex6Neighbors g.size cell,
      0 ≤ n.coordinate.1 ∧ n.coordinate.1 < (g.size : Int) ∧
      0 ≤ n.coordinate.2 ∧ n.coordinate.2 < (g.size : Int) := by
    intro n hn
    rw [hex6Neighbors, List.mem_filterMap] at hn
    obtain ⟨o, ho, heq⟩ := hn
    have hb := hex6_offset_bounds (cell.1 % 2 == 1) o ho
    by_cases hcond : cell.1 + o.1 = -1 ∨ cell.2 + o.2 = -1 ∨
        cell.1 + o.1 = (g.size : Int) ∨ cell.2 + o.2 = (g.size : Int)
    · simp [hcond] at heq
    · simp only [if_neg hcond, Option.some.injEq] at heq
      subst heq
      push_neg at hcond
      obtain ⟨n1, n2, n3, n4⟩ := hcond
      exact show (0 ≤ cell.1 + o.1 ∧ cell.1 + o.1 < (g.size : Int) ∧
        0 ≤ cell.2 + o.2 ∧ cell.2 + o.2 < (g.size : Int)) from by omega
  have hhex12 : ∀ n ∈ hex12Extra g.size cell,
      0 ≤ n.coordinate.1 ∧ n.coordinate.1 < (g.size : Int) ∧
      0 ≤ n.coordinate.2 ∧ n.coordinate.2 < (g.size : Int) := by
    intro n hn
    rw [hex12Extra, List.mem_filterMap] at hn
    obtain ⟨o, ho, heq⟩ := hn
    have hb := hex12_offset_bounds (cell.1 % 2 == 1) o ho
    by_cases hcond : cell.1 + o.1 = -1 ∨ cell.2 + o.2 = -1 ∨
        cell.1 + o.1 = -2 ∨ cell.2 + o.2 = -2 ∨
        cell.1 + o.1 = (g.size : Int) ∨ cell.2 + o.2 = (g.size : Int) ∨
        cell.1 + o.1 = (g.size : Int) + 1 ∨ cell.2 + o.2 = (g.size : Int) + 1
    · simp [hcond] at heq
    · simp only [if_neg hcond, Option.some.injEq] at heq
      subst heq
      push_neg at hcond
      obtain ⟨n1, n2, n3, n4, n5, n6, n7, n8⟩ := hcond
      exact show (0 ≤ cell.1 + o.1 ∧ cell.1 + o.1 < (g.size : Int) ∧
        0 ≤ cell.2 + o.2 ∧ cell.2 + o.2 < (g.size : Int)) from by omega
  obtain ⟨k, s, cs⟩ := g
  cases k
  case rect8 => exact hrect
  case hex6 => exact hhex6
  case hex12 =>
    intro n hn
    rw [show GolGrid.getNeighbors ⟨GridKind.hex12, s, cs⟩ cell
        = hex6Neighbors s cell ++ hex12Extra s cell from rfl, List.mem_append] at hn
    rcases hn with hn | hn
    · exact hhex6 n hn
    · exact hhex12 n hn

/-- An in-range lookup in an all-dead well-shaped grid gives `'.'`. -/
lemma cellAt_all_dead (g : GolGrid) (h1 : g.cells.length = g.size)
    (h2 : ∀ row ∈ g.cells, row.length = g.size)
    (hd : ∀ row ∈ g.cells, ∀ ch ∈ row, ch = '.') (p : Int × Int)
    (hp1 : 0 ≤ p.1 ∧ p.1 < (g.size : Int)) (hp2 : 0 ≤ p.2 ∧ p.2 < (g.size : Int)) :
    g.cellAt p = '.' := by
  obtain ⟨a, b⟩ := p
  obtain ⟨hrow, hcol, hcell, _⟩ := cellAt_getElem g h1 h2 a b hp1 hp2
  rw [hcell]
  exact hd _ (List.getElem_mem hrow) _ (List.getElem_mem hcol)

/-- Scores vanish on an all-dead grid, for every topology. -/
lemma scoreAt_all_dead (g : GolGrid) (h1 : g.cells.length = g.size)
    (h2 : ∀ row ∈ g.cells, row.length = g.size)
    (hd : ∀ row ∈ g.cells, ∀ ch ∈ row, ch = '.')
    (r c : Nat) (hr : r < g.size) (hc : c < g.size) :
    g.scoreAt ((r : Int), (c : Int)) = 0 := by
  unfold GolGrid.scoreAt
  apply List.sum_eq_zero
  intro x hx
  rw [List.mem_map] at hx
  obtain ⟨n, hn, rfl⟩ := hx
  have hrI : ((r : Int)) < ((g.size : Int)) := by exact_mod_cast hr
  have hcI : ((c : Int)) < ((g.size : Int)) := by exact_mod_cast hc
  have hin := getNeighbors_inRange g ((r : Int), (c : Int))
    ⟨Int.natCast_nonneg r, hrI⟩ ⟨Int.natCast_nonneg c, hcI⟩ n hn
  have hdot : g.cellAt n.coordinate = '.' :=
    cellAt_all_dead g h1 h2 hd n.coordinate ⟨hin.1, hin.2.1⟩ ⟨hin.2.2.1, hin.2.2.2⟩
  rw [if_pos hdot, zero_mul]

/-- Both rules leave a dead cell dead at score 0. -/
lemma liveRule_dead_zero (g : GolGrid) : g.liveRule '.' 0 = false := by
  obtain ⟨k, s, cs⟩ := g
  cases k
  case hex12 =>
    show HexGrid12.live '.' 0 = false
    unfold HexGrid12.live
    rw [decide_eq_false_iff_not]
    rintro (⟨h, _⟩ | ⟨_, h, _⟩)
    · exact absurd h (by decide)
    · exact absurd h (by norm_num)
  all_goals
    show Grid.live '.' 0 = false
    unfold Grid.live
    rw [decide_eq_false_iff_not]
    rintro (⟨h, _⟩ | ⟨_, h⟩)
    · exact absurd h (by decide)
    · exact absurd h (by norm_num)

/-- `update` fixes a well-shaped all-dead grid, for every topology. -/
lemma update_all_dead (g : GolGrid) (h1 : g.cells.length = g.size)
    (h2 : ∀ row ∈ g.cells, row.length = g.size)
    (hd : ∀ row ∈ g.cells, ∀ ch ∈ row, ch = '.') : g.update = g := by
  have hcells : (g.update).cells = g.cells := by
    rw [update_cells_eq g h1 h2]
    have hnext : ∀ r < g.size, ∀ c < g.size, g.nextVal r c = '.' := by
      intro r hr c hc
      have hrI : ((r : Int)) < ((g.size : Int)) := by exact_mod_cast hr
      have hcI : ((c : Int)) < ((g.size : Int)) := by exact_mod_cast hc
      unfold GolGrid.nextVal
      rw [cellAt_all_dead g h1 h2 hd ((r : Int), (c : Int))
          ⟨Int.natCast_nonneg r, hrI⟩ ⟨Int.natCast_nonneg c, hcI⟩,
        scoreAt_all_dead g h1 h2 hd r c hr hc, liveRule_dead_zero]
      simp
    apply List.ext_getElem (by simp [h1])
    intro i hi1 hi2
    simp only [List.getElem_map, List.getElem_range]
    have hi : i < g.size := by simpa using hi1
    apply List.ext_getElem (by simp [h2 _ (List.getElem_mem hi2)])
    intro j hj1 hj2
    simp only [List.getElem_map, List.getElem_range]
    have hj : j < g.size := by simpa using hj1
    rw [hnext i hi j hj]
    exact (hd _ (List.getElem_mem hi2) _ (List.getElem_mem hj2)).symm
  obtain ⟨k, s, cs⟩ := g
  show GolGrid.mk k s _ = GolGrid.mk k s cs
  rw [GolGrid.mk.injEq]
  exact ⟨rfl, rfl, hcells⟩

lemma iterate_update_all_dead (g : GolGrid) (h1 : g.cells.length = g.size)
    (h2 : ∀ row ∈ g.cells, row.length = g.size)
    (hd : ∀ row ∈ g.cells, ∀ ch ∈ row, ch = '.') :
    ∀ n : Nat, GolGrid.update^[n] g = g := by
  intro n
  induction n with
  | zero => rfl
  | succ n ih => rw [Function.iterate_succ_apply', ih, update_all_dead g h1 h2 hd]

/-- With probability 0 and draws in `[0,1)` every cell comes out `'.'`. -/
lemma gridOfRandom_prob_zero (rand : Nat → Nat → ℚ) (hrand : ∀ i j, 0 ≤ rand i j) :
    gridOfRandom GridKind.rect8 5 0 rand
      = ⟨GridKind.rect8, 5, List.replicate 5 (List.replicate 5 '.')⟩ := by
  unfold gridOfRandom
  rw [GolGrid.mk.injEq]
  refine ⟨rfl, rfl, ?_⟩
  have hrow : ∀ ci ∈ List.range 5,
      (List.range 5).map (fun r_idx => if rand ci r_idx < 0 then 'X' else '.')
        = (fun _ => List.replicate 5 '.') ci := by
    intro ci _
    have hcol : ∀ ri ∈ List.range 5,
        (if rand ci ri < 0 then 'X' else '.') = (fun _ => '.') ri := by
      intro ri _
      rw [if_neg (not_lt.mpr (hrand ci ri))]
    rw [List.map_congr_left hcol]
    simp [List.map_const']
  rw [List.map_congr_left hrow]
  simp [List.map_const']

/-- C6 (confirmed): a well-shaped all-DEAD grid of any topology is unchanged
by `update()` and hence by any number of `update()` calls; in particular a
5×5 Rect8 grid built with probability 0.0 renders as five rows of five `'.'`
before and after every generation. -/
theorem all_dead_grid_fixed_by_update (g : GolGrid)
    (h1 : g.cells.length = g.size) (h2 : ∀ row ∈ g.cells, row.length = g.size)
    (hd : ∀ row ∈ g.cells, ∀ ch ∈ row, ch = '.') :
    g.update = g ∧ (∀ n : Nat, GolGrid.update^[n] g = g) ∧
    (∀ rand : Nat → Nat → ℚ, (∀ i j, 0 ≤ rand i j) → ∀ k : Nat,
      rectRepr (GolGrid.update^[k] (gridOfRandom GridKind.rect8 5 0 rand))
        = ".....\n.....\n.....\n.....\n.....") := by
  refine ⟨update_all_dead g h1 h2 hd, iterate_update_all_dead g h1 h2 hd, ?_⟩
  intro rand hrand k
  rw [gridOfRandom_prob_zero rand hrand,
    iterate_update_all_dead _ (by decide) (by decide) (by decide) k]
  decide

/-! ### C8: the blinker oscillates with period 2 -/

lemma if_char_congr {P Q : Prop} [Decidable P] [Decidable Q] (h : P ↔ Q) :
    (if P then 'X' else '.') = (if Q then 'X' else '.') := if_congr h rfl rfl

lemma gridOfFn_cells_length (s : Nat) (f : Nat → Nat → Char) :
    (gridOfFn s f).cells.length = (gridOfFn s f).size := by
  simp [gridOfFn]

lemma gridOfFn_rows_length (s : Nat) (f : Nat → Nat → Char) :
    ∀ row ∈ (gridOfFn s f).cells, row.length = (gridOfFn s f).size := by
  intro row hrow
  simp only [gridOfFn, List.mem_map, List.mem_range] at hrow
  obtain ⟨i, hi, rfl⟩ := hrow
  simp [gridOfFn]

lemma cells_entry_gridOfFn (s : Nat) (f : Nat → Nat → Char) (i j : Nat)
    (hi : i < s) (hj : j < s) (d : Char) :
    (((gridOfFn s f).cells.getD i []).getD j d) = f i j := by
  show ((((List.range s).map (fun i => (List.range s).map (fun j => f i j))).getD i []).getD j d)
    = f i j
  rw [List.getD_eq_getElem _ [] (by simpa using hi)]
  simp only [List.getElem_map, List.getElem_range]
  rw [List.getD_eq_getElem _ d (by simpa using hj)]
  simp only [List.getElem_map, List.getElem_range]

lemma cellAt_gridOfFn (s : Nat) (f : Nat → Nat → Char) (a b : Int)
    (ha : 0 ≤ a ∧ a < (s : Int)) (hb : 0 ≤ b ∧ b < (s : Int)) :
    (gridOfFn s f).cellAt (a, b) = f a.toNat b.toNat := by
  unfold GolGrid.cellAt
  exact cells_entry_gridOfFn s f a.toNat b.toNat (by omega) (by omega) ' '

/-- Which positions score as alive around a horizontal blinker. -/
lemma scoresAsAlive_blinkerH (s r c : Nat) (hr1 : 1 ≤ r) (hr2 : r + 1 < s)
    (hc : c + 2 < s) (a b : Int) :
    scoresAsAlive (blinkerH s r c) (a, b)
      = decide (a = (r : Int) ∧ (b = (c : Int) ∨ b = (c : Int) + 1 ∨ b = (c : Int) + 2)) := by
  show (decide (0 ≤ a ∧ a < (s : Int) ∧ 0 ≤ b ∧ b < (s : Int)) &&
      decide ((blinkerH s r c).cellAt (a, b) ≠ '.')) = _
  by_cases hp : 0 ≤ a ∧ a < (s : Int) ∧ 0 ≤ b ∧ b < (s : Int)
  · rw [decide_eq_true hp, Bool.true_and]
    rw [show (blinkerH s r c).cellAt (a, b)
        = (if a.toNat = r ∧ (b.toNat = c ∨ b.toNat = c + 1 ∨ b.toNat = c + 2)
           then 'X' else '.') from
      cellAt_gridOfFn s _ a b ⟨hp.1, hp.2.1⟩ ⟨hp.2.2.1, hp.2.2.2⟩]
    by_cases hcond : a.toNat = r ∧ (b.toNat = c ∨ b.toNat = c + 1 ∨ b.toNat = c + 2)
    · rw [if_pos hcond, decide_eq_true (show ('X' : Char) ≠ '.' by decide),
        decide_eq_true (show _ by omega)]
    · rw [if_neg hcond, decide_eq_false (show ¬(('.' : Char) ≠ '.') by simp),
        decide_eq_false (show _ by omega)]
  · rw [decide_eq_false hp, Bool.false_and]
    exact (decide_eq_false (by omega)).symm

/-- Which positions score as alive around a vertical blinker. -/
lemma scoresAsAlive_blinkerV (s r c : Nat) (hr1 : 1 ≤ r) (hr2 : r + 1 < s)
    (hc : c + 2 < s) (a b : Int) :
    scoresAsAlive (blinkerV s r c) (a, b)
      = decide ((a = (r : Int) - 1 ∨ a = (r : Int) ∨ a = (r : Int) + 1) ∧ b = (c : Int) + 1) := by
  show (decide (0 ≤ a ∧ a < (s : Int) ∧ 0 ≤ b ∧ b < (s : Int)) &&
      decide ((blinkerV s r c).cellAt (a, b) ≠ '.')) = _
  by_cases hp : 0 ≤ a ∧ a < (s : Int) ∧ 0 ≤ b ∧ b < (s : Int)
  · rw [decide_eq_true hp, Bool.true_and]
    rw [show (blinkerV s r c).cellAt (a, b)
        = (if (a.toNat + 1 = r ∨ a.toNat = r ∨ a.toNat = r + 1) ∧ b.toNat = c + 1
           then 'X' else '.') from
      cellAt_gridOfFn s _ a b ⟨hp.1, hp.2.1⟩ ⟨hp.2.2.1, hp.2.2.2⟩]
    by_cases hcond : (a.toNat + 1 = r ∨ a.toNat = r ∨ a.toNat = r + 1) ∧ b.toNat = c + 1
    · rw [if_pos hcond, decide_eq_true (show ('X' : Char) ≠ '.' by decide),
        decide_eq_true (show _ by omega)]
    · rw [if_neg hcond, decide_eq_false (show ¬(('.' : Char) ≠ '.') by simp),
        decide_eq_false (show _ by omega)]
  · rw [decide_eq_false hp, Bool.false_and]
    exact (decide_eq_false (by omega)).symm

lemma rectCount_blinkerH (s r c : Nat) (hr1 : 1 ≤ r) (hr2 : r + 1 < s) (hc : c + 2 < s)
    (i j : Nat) :
    rectCount (blinkerH s r c) i j = hCount ((i : Int) - (r : Int)) ((j : Int) - (c : Int)) := by
  unfold rectCount hCount
  apply List.countP_congr
  intro o ho
  rw [scoresAsAlive_blinkerH s r c hr1 hr2 hc ((i : Int) + o.1) ((j : Int) + o.2)]
  simp only [decide_eq_true_eq]
  omega

lemma rectCount_blinkerV (s r c : Nat) (hr1 : 1 ≤ r) (hr2 : r + 1 < s) (hc : c + 2 < s)
    (i j : Nat) :
    rectCount (blinkerV s r c) i j = vCount ((i : Int) - (r : Int)) ((j : Int) - (c : Int)) := by
  unfold rectCount vCount
  apply List.countP_congr
  intro o ho
  rw [scoresAsAlive_blinkerV s r c hr1 hr2 hc ((i : Int) + o.1) ((j : Int) + o.2)]
  simp only [decide_eq_true_eq]
  omega

/-- One Conway step of the horizontal blinker pattern, as a pure function of
the displacement from the anchor. -/
lemma blinker_step_h (di dj : Int) :
    (if ((if di = 0 ∧ (dj = 0 ∨ dj = 1 ∨ dj = 2) then 'X' else '.') = 'X' ∧
          (hCount di dj = 2 ∨ hCount di dj = 3)) ∨
        ((if di = 0 ∧ (dj = 0 ∨ dj = 1 ∨ dj = 2) then 'X' else '.') = '.' ∧
          hCount di dj = 3)
     then 'X' else '.')
    = (if (di = -1 ∨ di = 0 ∨ di = 1) ∧ dj = 1 then 'X' else '.') := by
  by_cases hwin : (-1 ≤ di ∧ di ≤ 1) ∧ (-1 ≤ dj ∧ dj ≤ 3)
  · obtain ⟨⟨a1, a2⟩, b1, b2⟩ := hwin
    interval_cases di <;> interval_cases dj <;> decide
  · have hcnt : hCount di dj = 0 := by
      refine List.countP_eq_zero.mpr ?_
      intro o ho
      have hb := neighbors_offset_bounds o ho
      simp only [decide_eq_true_eq]
      omega
    rw [hcnt]
    have hH : ¬(di = 0 ∧ (dj = 0 ∨ dj = 1 ∨ dj = 2)) := by omega
    have hV : ¬((di = -1 ∨ di = 0 ∨ di = 1) ∧ dj = 1) := by omega
    rw [if_neg hH, if_neg hV, if_neg]
    rintro (⟨h, _⟩ | ⟨_, h⟩)
    · exact absurd h (by decide)
    · exact absurd h (by decide)

/-- One Conway step of the vertical blinker pattern. -/
lemma blinker_step_v (di dj : Int) :
    (if ((if (di = -1 ∨ di = 0 ∨ di = 1) ∧ dj = 1 then 'X' else '.') = 'X' ∧
          (vCount di dj = 2 ∨ vCount di dj = 3)) ∨
        ((if (di = -1 ∨ di = 0 ∨ di = 1) ∧ dj = 1 then 'X' else '.') = '.' ∧
          vCount di dj = 3)
     then 'X' else '.')
    = (if di = 0 ∧ (dj = 0 ∨ dj = 1 ∨ dj = 2) then 'X' else '.') := by
  by_cases hwin : (-2 ≤ di ∧ di ≤ 2) ∧ (0 ≤ dj ∧ dj ≤ 2)
  · obtain ⟨⟨a1, a2⟩, b1, b2⟩ := hwin
    interval_cases di <;> interval_cases dj <;> decide
  · have hcnt : vCount di dj = 0 := by
      refine List.countP_eq_zero.mpr ?_
      intro o ho
      have hb := neighbors_offset_bounds o ho
      simp only [decide_eq_true_eq]
      omega
    rw [hcnt]
    have hV : ¬((di = -1 ∨ di = 0 ∨ di = 1) ∧ dj = 1) := by omega
    have hH : ¬(di = 0 ∧ (dj = 0 ∨ dj = 1 ∨ dj = 2)) := by omega
    rw [if_neg hV, if_neg hH, if_neg]
    rintro (⟨h, _⟩ | ⟨_, h⟩)
    · exact absurd h (by decide)
    · exact absurd h (by decide)

lemma update_blinkerH (s r c : Nat) (hr1 : 1 ≤ r) (hr2 : r + 1 < s) (hc : c + 2 < s) :
    (blinkerH s r c).update = blinkerV s r c := by
  have hcells : ((blinkerH s r c).update).cells = (blinkerV s r c).cells := by
    rw [update_cells_rect (blinkerH s r c) rfl (gridOfFn_cells_length s _)
      (gridOfFn_rows_length s _)]
    show _ = (List.range s).map (fun i => (List.range s).map (fun j => _))
    apply List.map_congr_left
    intro i hi
    apply List.map_congr_left
    intro j hj
    rw [List.mem_range] at hi hj
    have hiI : ((i : Int)) < ((s : Int)) := by exact_mod_cast hi
    have hjI : ((j : Int)) < ((s : Int)) := by exact_mod_cast hj
    unfold rectNextVal
    rw [rectCount_blinkerH s r c hr1 hr2 hc i j,
      show (blinkerH s r c).cellAt ((i : Int), (j : Int))
          = (if ((i : Int) - (r : Int)) = 0 ∧
               (((j : Int) - (c : Int)) = 0 ∨ ((j : Int) - (c : Int)) = 1 ∨
                ((j : Int) - (c : Int)) = 2) then 'X' else '.') from
        (cellAt_gridOfFn s _ (i : Int) (j : Int)
          ⟨Int.natCast_nonneg i, hiI⟩ ⟨Int.natCast_nonneg j, hjI⟩).trans
        (if_char_congr (by omega)),
      blinker_step_h ((i : Int) - (r : Int)) ((j : Int) - (c : Int))]
    exact if_char_congr (by omega)
  show GolGrid.mk GridKind.rect8 s _ = GolGrid.mk GridKind.rect8 s _
  rw [GolGrid.mk.injEq]
  exact ⟨rfl, rfl, hcells⟩

lemma update_blinkerV (s r c : Nat) (hr1 : 1 ≤ r) (hr2 : r + 1 < s) (hc : c + 2 < s) :
    (blinkerV s r c).update = blinkerH s r c := by
  have hcells : ((blinkerV s r c).update).cells = (blinkerH s r c).cells := by
    rw [update_cells_rect (blinkerV s r c) rfl (gridOfFn_cells_length s _)
      (gridOfFn_rows_length s _)]
    show _ = (List.range s).map (fun i => (List.range s).map (fun j => _))
    apply List.map_congr_left
    intro i hi
    apply List.map_congr_left
    intro j hj
    rw [List.mem_range] at hi hj
    have hiI : ((i : Int)) < ((s : Int)) := by exact_mod_cast hi
    have hjI : ((j : Int)) < ((s : Int)) := by exact_mod_cast hj
    unfold rectNextVal
    rw [rectCount_blinkerV s r c hr1 hr2 hc i j,
      show (blinkerV s r c).cellAt ((i : Int), (j : Int))
          = (if (((i : Int) - (r : Int)) = -1 ∨ ((i : Int) - (r : Int)) = 0 ∨
               ((i : Int) - (r : Int)) = 1) ∧ ((j : Int) - (c : Int)) = 1
             then 'X' else '.') from
        (cellAt_gridOfFn s _ (i : Int) (j : Int)
          ⟨Int.natCast_nonneg i, hiI⟩ ⟨Int.natCast_nonneg j, hjI⟩).trans
        (if_char_congr (by omega)),
      blinker_step_v ((i : Int) - (r : Int)) ((j : Int) - (c : Int))]
    exact if_char_congr (by omega)
  show GolGrid.mk GridKind.rect8 s _ = GolGrid.mk GridKind.rect8 s _
  rw [GolGrid.mk.injEq]
  exact ⟨rfl, rfl, hcells⟩

/-- C8 (confirmed): on any board large enough that edge effects cannot reach
the pattern, a horizontal blinker returns to itself after two `update()`
calls and differs from itself after one — period exactly 2. -/
theorem blinker_oscillates_period_two (s r c : Nat)
    (hr1 : 1 ≤ r) (hr2 : r + 1 < s) (hc : c + 2 < s) :
    (blinkerH s r c).update.update = blinkerH s r c ∧
    (blinkerH s r c).update ≠ blinkerH s r c := by
  constructor
  · rw [update_blinkerH s r c hr1 hr2 hc, update_blinkerV s r c hr1 hr2 hc]
  · rw [update_blinkerH s r c hr1 hr2 hc]
    intro heq
    have h := congrArg (fun gg : GolGrid => ((gg.cells.getD (r - 1) []).getD (c + 1) ' ')) heq
    simp only at h
    have hV : (((blinkerV s r c).cells.getD (r - 1) []).getD (c + 1) ' ') = 'X' := by
      unfold blinkerV
      rw [cells_entry_gridOfFn s _ (r - 1) (c + 1) (by omega) (by omega) ' ',
        if_pos (by omega)]
    have hH : (((blinkerH s r c).cells.getD (r - 1) []).getD (c + 1) ' ') = '.' := by
      unfold blinkerH
      rw [cells_entry_gridOfFn s _ (r - 1) (c + 1) (by omega) (by omega) ' ',
        if_neg (by omega)]
    rw [hV, hH] at h
    exact absurd h (by decide)

/-! ### Witnesses: each hypothesis-bearing claim theorem applied at a
concrete input -/

/-- Witness for C1 at the concrete binary grid `c1grid`. -/
theorem rect8_update_is_classic_conway_witness :
    c1grid.update = { c1grid with cells := specConwayStep c1grid.cells c1grid.size } :=
  rect8_update_is_classic_conway c1grid rfl (by decide) (by decide) (by decide)

/-- Witness for C2 (amended) at `c2grid`, coordinate `(2,2)`. -/
theorem hex12_neighbors_at_most_twelve_weights_witness :
    c2grid.getNeighbors (2, 2)
        = hex6Neighbors c2grid.size (2, 2) ++ hex12Extra c2grid.size (2, 2) ∧
    (c2grid.getNeighbors (2, 2)).length ≤ 12 ∧
    (hex6Neighbors c2grid.size (2, 2)).length ≤ 6 ∧
    (hex12Extra c2grid.size (2, 2)).length ≤ 6 :=
  ⟨(hex12_neighbors_at_most_twelve_weights c2grid rfl (2, 2) (by decide) (by decide)).1,
   (hex12_neighbors_at_most_twelve_weights c2grid rfl (2, 2) (by decide) (by decide)).2.1,
   (hex12_neighbors_at_most_twelve_weights c2grid rfl (2, 2) (by decide) (by decide)).2.2.1,
   (hex12_neighbors_at_most_twelve_weights c2grid rfl (2, 2) (by decide) (by decide)).2.2.2.1⟩

/-- Witness for C4 (amended) at `c4grid`: the score of `(0,1)` is unchanged
when the `'o'` is rewritten to `'X'`, and the `'o'` cell `(0,0)` itself is
dead next generation. -/
theorem non_binary_symbol_scores_like_alive_and_dies_witness :
    c4grid.scoreAt (0, 1) = (c4grid.withAlivenessOnly).scoreAt (0, 1) ∧
    c4grid.nextVal 0 0 = '.' :=
  ⟨(non_binary_symbol_scores_like_alive_and_dies c4grid (0, 1) 0 0).1,
   (non_binary_symbol_scores_like_alive_and_dies c4grid (0, 1) 0 0).2
     (by decide) (by decide)⟩

/-- Witness for C5 at `c5grid`, interior coordinate `(1,1)`. -/
theorem rect8_neighbors_bounded_inrange_corners_witness :
    (c5grid.getNeighbors (1, 1)).length ≤ 8 ∧
    (c5grid.getNeighbors ((0 : Int), (0 : Int))).length = 3 ∧
    (c5grid.getNeighbors ((0 : Int), (c5grid.size : Int) - 1)).length = 3 ∧
    (c5grid.getNeighbors ((c5grid.size : Int) - 1, (0 : Int))).length = 3 ∧
    (c5grid.getNeighbors ((c5grid.size : Int) - 1, (c5grid.size : Int) - 1)).length = 3 :=
  ⟨(rect8_neighbors_bounded_inrange_corners c5grid rfl (1, 1) (by decide) (by decide)).1.1,
   ((rect8_neighbors_bounded_inrange_corners c5grid rfl (1, 1) (by decide) (by decide)).2
     (by decide)).1,
   ((rect8_neighbors_bounded_inrange_corners c5grid rfl (1, 1) (by decide) (by decide)).2
     (by decide)).2.1,
   ((rect8_neighbors_bounded_inrange_corners c5grid rfl (1, 1) (by decide) (by decide)).2
     (by decide)).2.2.1,
   ((rect8_neighbors_bounded_inrange_corners c5grid rfl (1, 1) (by decide) (by decide)).2
     (by decide)).2.2.2⟩

/-- Witness for C6: the all-dead 2×2 hex-12 grid is fixed, also after 3
generations, and the probability-0 5×5 Rect8 grid renders as all dots after
3 generations. -/
theorem all_dead_grid_fixed_by_update_witness :
    c6grid.update = c6grid ∧
    GolGrid.update^[3] c6grid = c6grid ∧
    rectRepr (GolGrid.update^[3] (gridOfRandom GridKind.rect8 5 0 (fun _ _ => 0)))
      = ".....\n.....\n.....\n.....\n....." :=
  ⟨(all_dead_grid_fixed_by_update c6grid (by decide) (by decide) (by decide)).1,
   (all_dead_grid_fixed_by_update c6grid (by decide) (by decide) (by decide)).2.1 3,
   (all_dead_grid_fixed_by_update c6grid (by decide) (by decide) (by decide)).2.2
     (fun _ _ => 0) (fun _ _ => le_refl 0) 3⟩

/-- Witness for C7 at the concrete layout `c7rows`. -/
theorem load_then_render_roundtrip_witness :
    rectRepr (gridOfLines GridKind.rect8 (c7rows.map (fun r => r ++ ['\n'])))
      = String.intercalate "\n" (c7rows.map String.mk) ∧
    rectRepr (gridOfLines GridKind.rect8 c7rows)
      = String.intercalate "\n" (c7rows.map String.mk) :=
  load_then_render_roundtrip c7rows (by decide) ⟨2, by decide⟩

/-- Witness for C8: the blinker anchored at `(2,1)` on a 5×5 board. -/
theorem blinker_oscillates_period_two_witness :
    (blinkerH 5 2 1).update.update = blinkerH 5 2 1 ∧
    (blinkerH 5 2 1).update ≠ blinkerH 5 2 1 :=
  blinker_oscillates_period_two 5 2 1 (by decide) (by decide) (by decide)

/-- Witness for C9 at a concrete one-cell grid, fully instantiated at its
single row and cell. -/
theorem update_produces_only_binary_symbols_witness :
    (((GolGrid.mk GridKind.rect8 1 [['.']]).update).cells.getD 0 []).getD 0 ' ' = 'X' ∨
    (((GolGrid.mk GridKind.rect8 1 [['.']]).update).cells.getD 0 []).getD 0 ' ' = '.' :=
  update_produces_only_binary_symbols (GolGrid.mk GridKind.rect8 1 [['.']])
    (by decide) (by decide)
    (((GolGrid.mk GridKind.rect8 1 [['.']]).update).cells.getD 0 []) (by decide)
    ((((GolGrid.mk GridKind.rect8 1 [['.']]).update).cells.getD 0 []).getD 0 ' ') (by decide)

/-- Witness for C10 (amended) at `c1grid`. -/
theorem update_preserves_shape_of_square_grid_witness :
    (c1grid.update).cells.length = c1grid.size ∧
    (c1grid.update).size = c1grid.size :=
  ⟨(update_preserves_shape_of_square_grid c1grid (by decide) (by decide)).1,
   (update_preserves_shape_of_square_grid c1grid (by decide) (by decide)).2.2⟩
